import Mathlib

/-!
# Multi-robot replanning node (`mpl_test_node/src/multi_robot_node1.cpp`)

A shallow embedding of `set_obs`, of the construction of the control-input set,
of the replan loop of `main` and of the final write to the bag, with the
properties of the coordination protocol proved about them.

`decimal_t` is taken as exact rational arithmetic.  The class `Robot<2>`
(`robot.hpp`), the obstacle classes and the message conversions are not part of
the translated file; what the translated code calls on them is collected in the
structure `Ext` and every theorem holds for every value of it.
-/

namespace MplRos

/-! ## Geometry -/

/-- The scalar type of the node, in exact arithmetic. -/
abbrev decimal_t := ℚ

/-- A point or direction of the plane (`Vec2f`). -/
abbrev Vec2f := ℚ × ℚ

/-- A point of space (`Vec3f`). -/
abbrev Vec3f := ℚ × ℚ × ℚ

/-- A half-plane boundary `Hyperplane2D(p, n)`: a point `p_` on it and its normal `n_`. -/
structure Hyperplane2D where
  p_ : Vec2f
  n_ : Vec2f
deriving DecidableEq

/-- A polyhedron `Polyhedron2D`: its hyperplanes `vs_` in insertion order. -/
structure Polyhedron2D where
  vs_ : List Hyperplane2D
deriving DecidableEq

/-- The empty polyhedron of a default-constructed `Polyhedron2D`. -/
def Polyhedron2D.empty : Polyhedron2D := ⟨[]⟩

/-- The call `rec.add(h)`: the hyperplane is appended. -/
def Polyhedron2D.add (P : Polyhedron2D) (h : Hyperplane2D) : Polyhedron2D :=
  ⟨P.vs_ ++ [h]⟩

/-- A static obstacle `PolyhedronObstacle2D(poly, v)`: a geometry and a velocity. -/
structure PolyhedronObstacle2D where
  poly_ : Polyhedron2D
  v_ : Vec2f
deriving DecidableEq

/-! ## Robots -/

/-- Modelled from the spec: `robot.hpp` is not among the sources.  A robot holds
the three obstacle lists that `set_static_obs`, `set_linear_obs` and
`set_nonlinear_obs` install, and a `body` standing for everything else the spec
lists for an agent (geometry, limits, control set, start and goal, current
state, history, trajectory). -/
structure Robot (B LO NO : Type) where
  body : B
  static_obs_ : List PolyhedronObstacle2D
  linear_obs_ : List LO
  nonlinear_obs_ : List NO
deriving DecidableEq

/-- Modelled from the spec: the setter `set_static_obs` of the absent `robot.hpp`
replaces the robot's static obstacle list and nothing else. -/
def Robot.set_static_obs {B LO NO : Type} (r : Robot B LO NO)
    (obs : List PolyhedronObstacle2D) : Robot B LO NO :=
  { r with static_obs_ := obs }

/-- Modelled from the spec: the setter `set_linear_obs` of the absent `robot.hpp`
replaces the robot's linear obstacle list and nothing else. -/
def Robot.set_linear_obs {B LO NO : Type} (r : Robot B LO NO)
    (obs : List LO) : Robot B LO NO :=
  { r with linear_obs_ := obs }

/-- Modelled from the spec: the setter `set_nonlinear_obs` of the absent `robot.hpp`
replaces the robot's nonlinear obstacle list and nothing else. -/
def Robot.set_nonlinear_obs {B LO NO : Type} (r : Robot B LO NO)
    (obs : List NO) : Robot B LO NO :=
  { r with nonlinear_obs_ := obs }

/-- Modelled from the spec: `robot.hpp`, the obstacle classes and the message
conversions are not among the sources; this structure collects what the
translated code calls on them.  Every theorem below holds for every value of it.

* `get_nonlinear_obstacle`: the method `Robot::get_nonlinear_obstacle(time)`.
  The spec derives a dynamic obstacle "from another agent's predicted future
  trajectory over a bounded horizon, evaluated at a specific logical time", so
  the evaluation reads the robot's `body` and the time, and not the obstacle
  lists the robot was given to plan against.
* `poly`, `static_poly`: the method `poly(t)` of the nonlinear and the static
  obstacle classes.
* `plan`: the robot after `plan(time)` and the flag it returns; it may read and
  change every part of the robot.
* `get_state_pos`, `get_primitives`, `get_history`: the const queries the
  telemetry loop makes (`get_state(time).pos`, `get_primitives()`,
  `get_history()`).
* `vec2_to_vec3`, `vec_to_cloud`, `polyhedron_array_to_ros`,
  `path_array_to_ros`, `toPrimitiveArrayROSMsg`: the message conversions, each
  giving the body of a message. -/
structure Ext (B LO NO Prim Cloud PolyArr PathArr PrimArr : Type) where
  get_nonlinear_obstacle : B → decimal_t → NO
  poly : NO → decimal_t → Polyhedron2D
  static_poly : PolyhedronObstacle2D → decimal_t → Polyhedron2D
  plan : Robot B LO NO → decimal_t → Robot B LO NO × Bool
  get_state_pos : Robot B LO NO → decimal_t → Vec2f
  get_primitives : Robot B LO NO → List Prim
  get_history : Robot B LO NO → List Vec2f
  vec2_to_vec3 : List Vec2f → List Vec3f
  vec_to_cloud : List Vec3f → Cloud
  polyhedron_array_to_ros : List Polyhedron2D → PolyArr
  path_array_to_ros : List (List Vec3f) → PathArr
  toPrimitiveArrayROSMsg : List Prim → PrimArr

section SetObs

variable {B LO NO Prim Cloud PolyArr PathArr PrimArr : Type}

/-- The inner loop of `set_obs` for the observer `i`: `j` runs over
`0 .. robots.size() - 1` and, when `i != j`, `robots[j].get_nonlinear_obstacle(time)`
is pushed.  The index is in range throughout, so the `none` branch is never taken. -/
def set_obs_inner (E : Ext B LO NO Prim Cloud PolyArr PathArr PrimArr)
    (robots : List (Robot B LO NO)) (time : decimal_t) (i : Nat) : List NO :=
  (List.range robots.length).foldl
    (fun nonlinear_obs j =>
      if i ≠ j then
        match robots[j]? with
        | some rj => nonlinear_obs ++ [E.get_nonlinear_obstacle rj.body time]
        | none => nonlinear_obs
      else nonlinear_obs)
    []

/-- One iteration of the outer loop of `set_obs`, on the fleet as it is at that
point (robots before `i` already carry their new obstacle lists): the three
setters are applied to `robots[i]` in place, then the polyhedron at 0 of
`robots[i].get_nonlinear_obstacle(time)` is pushed on `poly_obs`. -/
def set_obs_body (E : Ext B LO NO Prim Cloud PolyArr PathArr PrimArr)
    (time : decimal_t) (external_static_obs : List PolyhedronObstacle2D)
    (st : List (Robot B LO NO) × List Polyhedron2D) (i : Nat) :
    List (Robot B LO NO) × List Polyhedron2D :=
  let linear_obs : List LO := []
  let nonlinear_obs : List NO := set_obs_inner E st.1 time i
  let robots := st.1.modify
    (fun r => ((r.set_static_obs external_static_obs).set_linear_obs linear_obs).set_nonlinear_obs
      nonlinear_obs) i
  match robots[i]? with
  | some ri => (robots, st.2 ++ [E.poly (E.get_nonlinear_obstacle ri.body time) 0])
  | none => (robots, st.2)

/-- The function `set_obs`: the fleet is passed by reference and updated in place,
the list of polyhedra is returned; here both are returned. -/
def set_obs (E : Ext B LO NO Prim Cloud PolyArr PathArr PrimArr)
    (robots : List (Robot B LO NO)) (time : decimal_t)
    (external_static_obs : List PolyhedronObstacle2D) :
    List (Robot B LO NO) × List Polyhedron2D :=
  let st := (List.range robots.length).foldl (set_obs_body E time external_static_obs) (robots, [])
  (st.1, external_static_obs.foldl (fun poly_obs it => poly_obs ++ [E.static_poly it 0]) st.2)

/-- The fleet rearranged by `σ`: position `k` holds the robot that was at `σ k`. -/
def permute_fleet (robots : List (Robot B LO NO)) (σ : Equiv.Perm (Fin robots.length)) :
    List (Robot B LO NO) :=
  List.ofFn (fun k => robots.get (σ k))

end SetObs

/-! ## The control-input set -/

/-- The inner loop `for (decimal_t dy = -u; dy <= u; dy += du) U.push_back(Vec2f(dx, dy))`
from the value `dy` on, with a bound on the number of evaluations of its
condition; `none` when the bound is reached before the loop ends. -/
def input_control_inner (u du dx : decimal_t) : Nat → decimal_t → List Vec2f → Option (List Vec2f)
  | 0, _, _ => none
  | fuel + 1, dy, U =>
    if dy ≤ u then input_control_inner u du dx fuel (dy + du) (U ++ [(dx, dy)]) else some U

/-- The outer loop `for (decimal_t dx = -u; dx <= u; dx += du)` from the value
`dx` on; each run of the inner loop gets the bound `inner_fuel`. -/
def input_control_outer (u du : decimal_t) (inner_fuel : Nat) :
    Nat → decimal_t → List Vec2f → Option (List Vec2f)
  | 0, _, _ => none
  | fuel + 1, dx, U =>
    if dx ≤ u then
      match input_control_inner u du dx inner_fuel (-u) U with
      | none => none
      | some U1 => input_control_outer u du inner_fuel fuel (dx + du) U1
    else some U

/-- The construction of `U` in `main`: `du = u / num`, then the two nested loops
on an empty `U`.  Each loop may evaluate its condition at most `fuel` times. -/
def input_control (fuel : Nat) (u : decimal_t) (num : Int) : Option (List Vec2f) :=
  let du : decimal_t := u / (num : ℚ)
  input_control_outer u du fuel fuel (-u) []

/-! ## The obstacle course of `main` -/

/-- The robot footprint `rec` of `main`. -/
def rec : Polyhedron2D :=
  (((Polyhedron2D.empty.add ⟨(-0.5, 0), (-1, 0)⟩).add ⟨(0.5, 0), (1, 0)⟩).add
    ⟨(0, -0.5), (0, -1)⟩).add ⟨(0, 0.5), (0, 1)⟩

/-- The first static rectangle `rec2` of `main`. -/
def rec2 : Polyhedron2D :=
  (((Polyhedron2D.empty.add ⟨(4, 0), (-1, 0)⟩).add ⟨(6, 0), (1, 0)⟩).add
    ⟨(5, 0.2), (0, -1)⟩).add ⟨(5, 5.5), (0, 1)⟩

/-- The second static rectangle `rec3` of `main`. -/
def rec3 : Polyhedron2D :=
  (((Polyhedron2D.empty.add ⟨(4, 0), (-1, 0)⟩).add ⟨(6, 0), (1, 0)⟩).add
    ⟨(5, -5.5), (0, -1)⟩).add ⟨(5, -0.2), (0, 1)⟩

/-- The list `static_obs` of `main`: `rec2` then `rec3`, both with zero velocity. -/
def static_obs : List PolyhedronObstacle2D :=
  ([] ++ [PolyhedronObstacle2D.mk rec2 (0, 0)]) ++ [PolyhedronObstacle2D.mk rec3 (0, 0)]

/-- The fleet `robots` of `main`: the five robots pushed in order.  The robots
themselves are built by `robot.hpp` and are arguments here. -/
def robots_of_main {B LO NO : Type} (robot1 robot2 robot3 robot4 robot5 : Robot B LO NO) :
    List (Robot B LO NO) :=
  (((([] ++ [robot1]) ++ [robot2]) ++ [robot3]) ++ [robot4]) ++ [robot5]

/-! ## The replan loop -/

/-- A message header: the frame tag and the time stamp (exact arithmetic). -/
structure Header where
  frame_id : String
  stamp : ℚ
deriving DecidableEq

/-- A message with a header and the body a conversion produced. -/
structure Msg (α : Type) where
  header : Header
  data : α
deriving DecidableEq

/-- The increment `update_t` of the logical time. -/
def update_t : decimal_t := 0.01

section Loop

variable {B LO NO Prim Cloud PolyArr PathArr PrimArr : Type}

/-- The state the replan loop of `main` works on: the fleet, the logical time,
the four message buffers, and what each of the four publishers has sent. -/
structure LoopState (B LO NO Cloud PolyArr PathArr PrimArr : Type) where
  robots : List (Robot B LO NO)
  time : decimal_t
  cloud_msgs : List (Msg Cloud)
  poly_msgs : List (Msg PolyArr)
  path_msgs : List (Msg PathArr)
  prs_msgs : List (Msg PrimArr)
  cloud_pub : List (Msg Cloud)
  poly_pub : List (Msg PolyArr)
  path_pub : List (Msg PathArr)
  prs_pub : List (Msg PrimArr)

/-- The loop `for(auto& it: robots) it.plan(time);`: every robot is replaced by
its state after `plan`, the returned flag is dropped. -/
def plan_all (E : Ext B LO NO Prim Cloud PolyArr PathArr PrimArr)
    (robots : List (Robot B LO NO)) (time : decimal_t) : List (Robot B LO NO) :=
  robots.map (fun it => (E.plan it time).1)

/-- The statement `itt.p_ -= itt.n_ * 0.25` on one hyperplane. -/
def shrink_hyperplane (itt : Hyperplane2D) : Hyperplane2D :=
  { itt with p_ := (itt.p_.1 - itt.n_.1 * 0.25, itt.p_.2 - itt.n_.2 * 0.25) }

/-- The loop "Reduce the size of obstacles manually" over `poly_obs`. -/
def shrink (poly_obs : List Polyhedron2D) : List Polyhedron2D :=
  poly_obs.map (fun it => { it with vs_ := it.vs_.map shrink_hyperplane })

/-- The three arrays the telemetry loop fills. -/
structure Telemetry (Prim : Type) where
  path_array : List (List Vec3f)
  prs_array : List Prim
  states : List Vec2f

/-- The loop over `robots` that fills `states`, `prs_array` and `path_array`. -/
def collect (E : Ext B LO NO Prim Cloud PolyArr PathArr PrimArr)
    (robots : List (Robot B LO NO)) (time : decimal_t) : Telemetry Prim :=
  robots.foldl
    (fun acc it =>
      let states := acc.states ++ [E.get_state_pos it time]
      let prs := E.get_primitives it
      let prs_array := acc.prs_array ++ prs
      let path_array := acc.path_array ++ [E.vec2_to_vec3 (E.get_history it)]
      { path_array := path_array, prs_array := prs_array, states := states })
    { path_array := [], prs_array := [], states := [] }

/-- One iteration of the body of `while (ros::ok())`. -/
def tick (E : Ext B LO NO Prim Cloud PolyArr PathArr PrimArr) (t0 : ℚ)
    (static_obs : List PolyhedronObstacle2D)
    (s : LoopState B LO NO Cloud PolyArr PathArr PrimArr) :
    LoopState B LO NO Cloud PolyArr PathArr PrimArr :=
  let time := s.time + update_t
  let res := set_obs E s.robots time static_obs
  let robots := plan_all E res.1 time
  let poly_obs := shrink res.2
  let poly_msg : Msg PolyArr :=
    { header := { frame_id := "map", stamp := t0 + time },
      data := E.polyhedron_array_to_ros poly_obs }
  let tel := collect E robots time
  let path_msg : Msg PathArr :=
    { header := { frame_id := "map", stamp := t0 + time },
      data := E.path_array_to_ros tel.path_array }
  let prs_msg : Msg PrimArr :=
    { header := { frame_id := "map", stamp := t0 + time },
      data := E.toPrimitiveArrayROSMsg tel.prs_array }
  let cloud_msg : Msg Cloud :=
    { header := { frame_id := "map", stamp := t0 + time },
      data := E.vec_to_cloud (E.vec2_to_vec3 tel.states) }
  { robots := robots
    time := time
    cloud_msgs := s.cloud_msgs ++ [cloud_msg]
    poly_msgs := s.poly_msgs ++ [poly_msg]
    path_msgs := s.path_msgs ++ [path_msg]
    prs_msgs := s.prs_msgs ++ [prs_msg]
    cloud_pub := s.cloud_pub ++ [cloud_msg]
    poly_pub := s.poly_pub ++ [poly_msg]
    path_pub := s.path_pub ++ [path_msg]
    prs_pub := s.prs_pub ++ [prs_msg] }

/-- The state at "Start the replan loop": time 0 and empty buffers. -/
def loop_start (robots : List (Robot B LO NO)) :
    LoopState B LO NO Cloud PolyArr PathArr PrimArr :=
  { robots := robots, time := 0, cloud_msgs := [], poly_msgs := [], path_msgs := [],
    prs_msgs := [], cloud_pub := [], poly_pub := [], path_pub := [], prs_pub := [] }

/-- The loop `while (ros::ok()) ...`: `oks` lists the answers of `ros::ok()` in
the order the loop asks for them (the stop signal comes from the host); the
loop runs a tick for every `true` and ends at the first `false`. -/
def replan_loop (E : Ext B LO NO Prim Cloud PolyArr PathArr PrimArr) (t0 : ℚ)
    (static_obs : List PolyhedronObstacle2D) :
    List Bool → LoopState B LO NO Cloud PolyArr PathArr PrimArr →
      LoopState B LO NO Cloud PolyArr PathArr PrimArr
  | true :: oks, s => replan_loop E t0 static_obs oks (tick E t0 static_obs s)
  | _, s => s

/-! ## The bag -/

/-- A message of one of the four types written to the bag. -/
inductive BagMsg (Cloud PolyArr PathArr PrimArr : Type) where
  | cloud (m : Msg Cloud)
  | polys (m : Msg PolyArr)
  | paths (m : Msg PathArr)
  | prs (m : Msg PrimArr)
deriving DecidableEq

/-- One call `bag.write(topic, time, msg)`. -/
structure BagRecord (Cloud PolyArr PathArr PrimArr : Type) where
  topic : String
  time : ℚ
  msg : BagMsg Cloud PolyArr PathArr PrimArr
deriving DecidableEq

/-- The section "Write to bag": the bag is opened empty and the four buffers
are written one after the other, each message under its channel name with its
own header stamp.  The bag is the list of its records in write order. -/
def write_bag (states_name polys_name paths_name prs_name : String)
    (s : LoopState B LO NO Cloud PolyArr PathArr PrimArr) :
    List (BagRecord Cloud PolyArr PathArr PrimArr) :=
  let bag : List (BagRecord Cloud PolyArr PathArr PrimArr) := []
  let bag := s.cloud_msgs.foldl
    (fun bag it => bag ++ [BagRecord.mk states_name it.header.stamp (BagMsg.cloud it)]) bag
  let bag := s.poly_msgs.foldl
    (fun bag it => bag ++ [BagRecord.mk polys_name it.header.stamp (BagMsg.polys it)]) bag
  let bag := s.path_msgs.foldl
    (fun bag it => bag ++ [BagRecord.mk paths_name it.header.stamp (BagMsg.paths it)]) bag
  let bag := s.prs_msgs.foldl
    (fun bag it => bag ++ [BagRecord.mk prs_name it.header.stamp (BagMsg.prs it)]) bag
  bag

/-- The records of a bag written under the topic `name`, in write order. -/
def records_under (name : String) (bag : List (BagRecord Cloud PolyArr PathArr PrimArr)) :
    List (BagRecord Cloud PolyArr PathArr PrimArr) :=
  bag.filter (fun r => r.topic == name)

end Loop

/-! ## Definitions used to state the properties -/

section Aux

variable {B LO NO Prim Cloud PolyArr PathArr PrimArr : Type}

/-- The number of obstacles in the snapshot a robot carries. -/
def Robot.snapshot_size (r : Robot B LO NO) : Nat :=
  r.nonlinear_obs_.length + r.linear_obs_.length + r.static_obs_.length

/-- The collaborators `E` with the flag returned by `plan` replaced by `outcome`. -/
def Ext.with_outcome (E : Ext B LO NO Prim Cloud PolyArr PathArr PrimArr)
    (outcome : Robot B LO NO → decimal_t → Bool) : Ext B LO NO Prim Cloud PolyArr PathArr PrimArr :=
  { E with plan := fun r t => ((E.plan r t).1, outcome r t) }

/-- A small instance of the collaborators on which the definitions can be
evaluated: a robot's body is a number, its dynamic obstacle is that number,
`plan` changes nothing and reports failure, and the conversions keep their
argument. -/
def demoExt : Ext Nat Unit Nat Nat (List Vec3f) (List Polyhedron2D) (List (List Vec3f)) (List Nat) where
  get_nonlinear_obstacle := fun b _ => b
  poly := fun n _ => ⟨[⟨((n : ℚ), 0), (1, 0)⟩]⟩
  static_poly := fun o _ => o.poly_
  plan := fun r _ => (r, false)
  get_state_pos := fun r _ => ((r.body : ℚ), 0)
  get_primitives := fun r => [r.body]
  get_history := fun r => [((r.body : ℚ), 0)]
  vec2_to_vec3 := fun l => l.map (fun p => (p.1, p.2, 0))
  vec_to_cloud := id
  polyhedron_array_to_ros := id
  path_array_to_ros := id
  toPrimitiveArrayROSMsg := id

/-- A robot of the small instance with body `n` and no obstacles yet. -/
def demoRobot (n : Nat) : Robot Nat Unit Nat := ⟨n, [], [], []⟩

/-- The state of the small instance after one tick of a fleet of two. -/
def demoRun : LoopState Nat Unit Nat (List Vec3f) (List Polyhedron2D) (List (List Vec3f)) (List Nat) :=
  replan_loop demoExt 0 [] [true, false] (loop_start [demoRobot 1, demoRobot 2])

end Aux

/-! ## Lemmas on `set_obs` -/

section Properties

variable {B LO NO Prim Cloud PolyArr PathArr PrimArr : Type}

/-- The dynamic obstacles of all robots but the one at index `i`, in index order. -/
theorem set_obs_inner_upto (E : Ext B LO NO Prim Cloud PolyArr PathArr PrimArr)
    (robots : List (Robot B LO NO)) (time : decimal_t) (i : Nat) :
    ∀ n, n ≤ robots.length →
      (List.range n).foldl
        (fun nonlinear_obs j =>
          if i ≠ j then
            match robots[j]? with
            | some rj => nonlinear_obs ++ [E.get_nonlinear_obstacle rj.body time]
            | none => nonlinear_obs
          else nonlinear_obs) []
      = (((robots.map (fun r => r.body)).take n).enum.filter (fun p => decide (p.1 ≠ i))).map
          (fun p => E.get_nonlinear_obstacle p.2 time) := by
  intro n
  induction n with
  | zero => intro _; simp
  | succ n ih =>
    intro hn
    have hlt : n < robots.length := hn
    rw [List.range_succ, List.foldl_append, ih (Nat.le_of_lt hlt)]
    have hget : robots[n]? = some robots[n] := List.getElem?_eq_getElem hlt
    have hlt2 : n < (robots.map (fun r => r.body)).length := by simpa using hlt
    rw [List.take_succ, List.getElem?_eq_getElem hlt2, List.enum_append]
    by_cases hin : i = n
    · subst hin
      simp [List.enumFrom_cons, Nat.min_eq_left (Nat.le_of_lt hlt)]
    · have hni : n ≠ i := fun h => hin h.symm
      simp [hin, hni, hget, List.enumFrom_cons, Nat.min_eq_left (Nat.le_of_lt hlt)]

theorem set_obs_inner_eq (E : Ext B LO NO Prim Cloud PolyArr PathArr PrimArr)
    (robots : List (Robot B LO NO)) (time : decimal_t) (i : Nat) :
    set_obs_inner E robots time i
      = (((robots.map (fun r => r.body)).enum.filter (fun p => decide (p.1 ≠ i))).map
          (fun p => E.get_nonlinear_obstacle p.2 time)) := by
  have h := set_obs_inner_upto E robots time i robots.length (Nat.le_refl _)
  have hfull : (robots.map (fun r => r.body)).take robots.length = robots.map (fun r => r.body) := by
    apply List.take_of_length_le; simp
  rw [hfull] at h
  exact h

theorem set_obs_inner_congr (E : Ext B LO NO Prim Cloud PolyArr PathArr PrimArr)
    (rs rs' : List (Robot B LO NO)) (time : decimal_t) (i : Nat)
    (h : rs.map (fun r => r.body) = rs'.map (fun r => r.body)) :
    set_obs_inner E rs time i = set_obs_inner E rs' time i := by
  rw [set_obs_inner_eq, set_obs_inner_eq, h]

/-- The fleet after the first `n` iterations of the outer loop. -/
theorem mapIdx_body (robots : List (Robot B LO NO)) (n : Nat)
    (S : List PolyhedronObstacle2D) (g : Nat → List NO) :
    (robots.mapIdx (fun j r => if j < n then (⟨r.body, S, [], g j⟩ : Robot B LO NO) else r)).map
      (fun r => r.body) = robots.map (fun r => r.body) := by
  apply List.ext_getElem?
  intro m
  simp only [List.getElem?_map, List.getElem?_mapIdx]
  cases robots[m]? with
  | none => rfl
  | some r => by_cases h : m < n <;> simp [h]

theorem set_obs_outer_upto (E : Ext B LO NO Prim Cloud PolyArr PathArr PrimArr)
    (robots : List (Robot B LO NO)) (time : decimal_t) (S : List PolyhedronObstacle2D) :
    ∀ n, n ≤ robots.length →
      (List.range n).foldl (set_obs_body E time S) (robots, [])
      = (robots.mapIdx (fun j r =>
            if j < n then (⟨r.body, S, [], set_obs_inner E robots time j⟩ : Robot B LO NO) else r),
         (robots.take n).map (fun r => E.poly (E.get_nonlinear_obstacle r.body time) 0)) := by
  intro n
  induction n with
  | zero =>
    intro _
    have h0 : robots.mapIdx (fun j r =>
        if j < 0 then (⟨r.body, S, [], set_obs_inner E robots time j⟩ : Robot B LO NO) else r)
        = robots := by
      apply List.ext_getElem?
      intro m
      simp only [List.getElem?_mapIdx]
      cases robots[m]? <;> simp
    rw [h0]
    rfl
  | succ n ih =>
    intro hn
    have hlt : n < robots.length := hn
    rw [List.range_succ, List.foldl_append, ih (Nat.le_of_lt hlt)]
    simp only [List.foldl_cons, List.foldl_nil, set_obs_body]
    rw [set_obs_inner_congr E _ robots time n (mapIdx_body robots n S _)]
    have hmod : List.modify
        (fun r : Robot B LO NO =>
          ((r.set_static_obs S).set_linear_obs []).set_nonlinear_obs (set_obs_inner E robots time n)) n
        (robots.mapIdx (fun j r =>
            if j < n then (⟨r.body, S, [], set_obs_inner E robots time j⟩ : Robot B LO NO) else r))
        = robots.mapIdx (fun j r =>
            if j < n + 1 then (⟨r.body, S, [], set_obs_inner E robots time j⟩ : Robot B LO NO)
            else r) := by
      apply List.ext_getElem?
      intro m
      simp only [List.getElem?_modify, List.getElem?_mapIdx]
      cases robots[m]? with
      | none => rfl
      | some r =>
        by_cases h1 : n = m
        · subst h1
          simp [Robot.set_static_obs, Robot.set_linear_obs, Robot.set_nonlinear_obs]
        · by_cases h2 : m < n
          · have h3 : m < n + 1 := by omega
            simp [h1, h2, h3]
          · have h3 : ¬ m < n + 1 := by omega
            simp [h1, h2, h3]
    rw [hmod]
    have hget : (robots.mapIdx (fun j r =>
            if j < n + 1 then (⟨r.body, S, [], set_obs_inner E robots time j⟩ : Robot B LO NO)
            else r))[n]? = some ⟨robots[n].body, S, [], set_obs_inner E robots time n⟩ := by
      simp [List.getElem?_mapIdx, List.getElem?_eq_getElem hlt]
    rw [hget]
    simp only [List.take_succ, List.getElem?_eq_getElem hlt, Option.toList, List.map_append,
      List.map_cons, List.map_nil]

theorem foldl_push {α β : Type} (f : α → β) (l : List α) :
    ∀ init : List β, l.foldl (fun acc x => acc ++ [f x]) init = init ++ l.map f := by
  induction l with
  | nil => intro init; simp
  | cons a l ih => intro init; simp [ih]

/-- Closed form of `set_obs`. -/
theorem set_obs_eq (E : Ext B LO NO Prim Cloud PolyArr PathArr PrimArr)
    (robots : List (Robot B LO NO)) (time : decimal_t) (S : List PolyhedronObstacle2D) :
    set_obs E robots time S
      = (robots.mapIdx (fun j r =>
            (⟨r.body, S, [], set_obs_inner E robots time j⟩ : Robot B LO NO)),
         robots.map (fun r => E.poly (E.get_nonlinear_obstacle r.body time) 0)
           ++ S.map (fun it => E.static_poly it 0)) := by
  unfold set_obs
  rw [set_obs_outer_upto E robots time S robots.length (Nat.le_refl _)]
  simp only [foldl_push, List.take_length]
  congr 1
  apply List.ext_getElem?
  intro m
  simp only [List.getElem?_mapIdx]
  by_cases hm : m < robots.length
  · simp [List.getElem?_eq_getElem hm, hm]
  · have : robots[m]? = none := List.getElem?_eq_none (Nat.le_of_not_lt hm)
    simp [this]

theorem enum_filter_ne_eq_eraseIdx {α : Type} (l : List α) :
    ∀ (i k : Nat), ((l.enumFrom k).filter (fun p => decide (p.1 ≠ k + i))).map Prod.snd = l.eraseIdx i := by
  induction l with
  | nil => intro i k; simp
  | cons a l ih =>
    intro i k
    cases i with
    | zero =>
      simp only [List.enumFrom_cons, Nat.add_zero, List.eraseIdx_cons_zero]
      rw [List.filter_cons_of_neg (by simp)]
      have hall : (l.enumFrom (k + 1)).filter (fun p => decide (p.1 ≠ k)) = l.enumFrom (k + 1) := by
        rw [List.filter_eq_self]
        intro p hp
        have := List.le_fst_of_mem_enumFrom hp
        simp; omega
      rw [hall]
      simp
    | succ i =>
      simp only [List.enumFrom_cons, List.eraseIdx_cons_succ]
      rw [List.filter_cons_of_pos (by simp)]
      have := ih i (k + 1)
      rw [show k + 1 + i = k + (i + 1) by omega] at this
      simpa using this

theorem map_eraseIdx_comm {α β : Type} (f : α → β) (l : List α) :
    ∀ i, (l.map f).eraseIdx i = (l.eraseIdx i).map f := by
  induction l with
  | nil => intro i; simp
  | cons a l ih =>
    intro i
    cases i with
    | zero => simp
    | succ i => simp [ih]

/-- The inner loop gives the dynamic obstacles of the fleet with position `i` erased. -/
theorem set_obs_inner_eraseIdx (E : Ext B LO NO Prim Cloud PolyArr PathArr PrimArr)
    (robots : List (Robot B LO NO)) (time : decimal_t) (i : Nat) :
    set_obs_inner E robots time i
      = (robots.eraseIdx i).map (fun r => E.get_nonlinear_obstacle r.body time) := by
  rw [set_obs_inner_eq]
  have h := enum_filter_ne_eq_eraseIdx (robots.map (fun r => r.body)) i 0
  simp only [Nat.zero_add] at h
  have h2 : (fun p : Nat × B => E.get_nonlinear_obstacle p.2 time)
      = (fun b => E.get_nonlinear_obstacle b time) ∘ Prod.snd := rfl
  rw [h2, ← List.map_map]
  unfold List.enum
  rw [h]
  rw [map_eraseIdx_comm, List.map_map]
  rfl

theorem set_obs_inner_enum (E : Ext B LO NO Prim Cloud PolyArr PathArr PrimArr)
    (robots : List (Robot B LO NO)) (time : decimal_t) (i : Nat) :
    set_obs_inner E robots time i
      = (robots.enum.filter (fun p => decide (p.1 ≠ i))).map
          (fun p => E.get_nonlinear_obstacle p.2.body time) := by
  rw [set_obs_inner_eq, List.enum_map, List.filter_map, List.map_map]
  rfl

/-- The robot at position `i` after `set_obs`. -/
theorem set_obs_getElem? (E : Ext B LO NO Prim Cloud PolyArr PathArr PrimArr)
    (robots : List (Robot B LO NO)) (time : decimal_t) (S : List PolyhedronObstacle2D) (i : Nat) :
    (set_obs E robots time S).1[i]?
      = robots[i]?.map (fun r => (⟨r.body, S, [], set_obs_inner E robots time i⟩ : Robot B LO NO)) := by
  rw [set_obs_eq]
  simp [List.getElem?_mapIdx]

theorem set_obs_length (E : Ext B LO NO Prim Cloud PolyArr PathArr PrimArr)
    (robots : List (Robot B LO NO)) (time : decimal_t) (S : List PolyhedronObstacle2D) :
    (set_obs E robots time S).1.length = robots.length := by
  rw [set_obs_eq]; simp

theorem set_obs_bodies (E : Ext B LO NO Prim Cloud PolyArr PathArr PrimArr)
    (robots : List (Robot B LO NO)) (time : decimal_t) (S : List PolyhedronObstacle2D) :
    (set_obs E robots time S).1.map (fun r => r.body) = robots.map (fun r => r.body) := by
  rw [set_obs_eq]
  apply List.ext_getElem?
  intro m
  simp only [List.getElem?_map, List.getElem?_mapIdx]
  cases robots[m]? <;> rfl

/-- Claim C1: after `set_obs robots time S` the nonlinear obstacle list of the robot
at position `i` is the list of `get_nonlinear_obstacle time` of the robots at the
positions `j = 0 .. n - 1` with `j ≠ i`, in increasing order of `j` (that is, of
the fleet with position `i` erased), and its static obstacle list is `S`. -/
theorem set_obs_snapshot_excludes_self (E : Ext B LO NO Prim Cloud PolyArr PathArr PrimArr)
    (robots : List (Robot B LO NO)) (time : decimal_t) (S : List PolyhedronObstacle2D)
    (i : Nat) (hi : i < robots.length) :
    ∃ r, (set_obs E robots time S).1[i]? = some r ∧
      r.nonlinear_obs_ = (robots.enum.filter (fun p => decide (p.1 ≠ i))).map
          (fun p => E.get_nonlinear_obstacle p.2.body time) ∧
      r.nonlinear_obs_ = (robots.eraseIdx i).map (fun rj => E.get_nonlinear_obstacle rj.body time) ∧
      r.static_obs_ = S := by
  refine ⟨⟨robots[i].body, S, [], set_obs_inner E robots time i⟩, ?_, ?_, ?_, rfl⟩
  · rw [set_obs_getElem?, List.getElem?_eq_getElem hi]; rfl
  · exact set_obs_inner_enum E robots time i
  · exact set_obs_inner_eraseIdx E robots time i

/-- Claim C9: the list `set_obs` returns has `n + s` polyhedra: entry `i < n` is the
polyhedron at 0 of the dynamic obstacle of robot `i`, entry `n + k` with `k < s`
is the polyhedron at 0 of the `k`-th static obstacle. -/
theorem set_obs_returns_fleet_then_statics (E : Ext B LO NO Prim Cloud PolyArr PathArr PrimArr)
    (robots : List (Robot B LO NO)) (time : decimal_t) (S : List PolyhedronObstacle2D) :
    (set_obs E robots time S).2
        = robots.map (fun r => E.poly (E.get_nonlinear_obstacle r.body time) 0)
          ++ S.map (fun it => E.static_poly it 0) ∧
      (set_obs E robots time S).2.length = robots.length + S.length ∧
      (∀ i, i < robots.length →
        (set_obs E robots time S).2[i]?
          = robots[i]?.map (fun r => E.poly (E.get_nonlinear_obstacle r.body time) 0)) ∧
      (∀ k, k < S.length →
        (set_obs E robots time S).2[robots.length + k]?
          = S[k]?.map (fun it => E.static_poly it 0)) := by
  rw [set_obs_eq]
  refine ⟨rfl, by simp, ?_, ?_⟩
  · intro i hi
    simp only
    rw [List.getElem?_append_left (by simpa using hi)]
    simp
  · intro k _
    simp only
    rw [List.getElem?_append_right (by simp)]
    simp

theorem perm_cons_eraseIdx {α : Type} (l : List α) :
    ∀ (i : Nat) (h : i < l.length), List.Perm l (l[i] :: l.eraseIdx i) := by
  induction l with
  | nil => intro i h; simp at h
  | cons a l ih =>
    intro i h
    cases i with
    | zero => simp
    | succ i =>
      have hi : i < l.length := by simpa using h
      simp only [List.getElem_cons_succ, List.eraseIdx_cons_succ]
      exact ((ih i hi).cons a).trans (List.Perm.swap _ _ _)

theorem permute_fleet_perm (robots : List (Robot B LO NO)) (σ : Equiv.Perm (Fin robots.length)) :
    List.Perm (permute_fleet robots σ) robots := by
  have h := Equiv.Perm.ofFn_comp_perm σ (fun k => robots.get k)
  rw [List.ofFn_get] at h
  exact h

theorem permute_fleet_length (robots : List (Robot B LO NO)) (σ : Equiv.Perm (Fin robots.length)) :
    (permute_fleet robots σ).length = robots.length := by
  simp [permute_fleet]

theorem permute_fleet_getElem (robots : List (Robot B LO NO)) (σ : Equiv.Perm (Fin robots.length))
    (k : Fin robots.length) (h : (k : Nat) < (permute_fleet robots σ).length) :
    (permute_fleet robots σ)[(k : Nat)] = robots[(σ k : Nat)] := by
  simp [permute_fleet]

/-- Claim C4: rearranging the fleet does not change the snapshot of an agent.  With
the fleet rearranged by `σ`, the robot at position `k` of the rearranged fleet
is the robot at position `σ k` of the original one, and after `set_obs` on
either fleet it carries the same dynamic obstacles up to order (the same
multiset, hence the same set), no linear obstacle and the static list `S`. -/
theorem set_obs_order_independent (E : Ext B LO NO Prim Cloud PolyArr PathArr PrimArr)
    (robots : List (Robot B LO NO)) (time : decimal_t) (S : List PolyhedronObstacle2D)
    (σ : Equiv.Perm (Fin robots.length)) (k : Fin robots.length) :
    ∃ a b, (set_obs E robots time S).1[(σ k : Nat)]? = some a ∧
      (set_obs E (permute_fleet robots σ) time S).1[(k : Nat)]? = some b ∧
      a.body = b.body ∧
      List.Perm a.nonlinear_obs_ b.nonlinear_obs_ ∧
      (∀ x, x ∈ a.nonlinear_obs_ ↔ x ∈ b.nonlinear_obs_) ∧
      a.linear_obs_ = b.linear_obs_ ∧
      a.static_obs_ = b.static_obs_ := by
  have hk : (k : Nat) < (permute_fleet robots σ).length := by
    rw [permute_fleet_length]; exact k.isLt
  have hσ : (σ k : Nat) < robots.length := (σ k).isLt
  have hget := permute_fleet_getElem robots σ k hk
  have hperm : List.Perm (robots.eraseIdx (σ k)) ((permute_fleet robots σ).eraseIdx k) := by
    have h1 := perm_cons_eraseIdx robots (σ k) hσ
    have h2 := perm_cons_eraseIdx (permute_fleet robots σ) k hk
    rw [hget] at h2
    exact List.Perm.cons_inv (h1.symm.trans ((permute_fleet_perm robots σ).symm.trans h2))
  have hnl : List.Perm (set_obs_inner E robots time (σ k))
      (set_obs_inner E (permute_fleet robots σ) time k) := by
    rw [set_obs_inner_eraseIdx, set_obs_inner_eraseIdx]
    exact hperm.map _
  refine ⟨⟨robots[(σ k : Nat)].body, S, [], set_obs_inner E robots time (σ k)⟩,
    ⟨(permute_fleet robots σ)[(k : Nat)].body, S, [],
      set_obs_inner E (permute_fleet robots σ) time k⟩, ?_, ?_, ?_, hnl, ?_, rfl, rfl⟩
  · rw [set_obs_getElem?, List.getElem?_eq_getElem hσ]; rfl
  · rw [set_obs_getElem?, List.getElem?_eq_getElem hk]; rfl
  · simp only; rw [hget]
  · intro x; exact hnl.mem_iff

/-! ## The replan loop: logical time and record counts -/

theorem collect_foldl (E : Ext B LO NO Prim Cloud PolyArr PathArr PrimArr) (time : decimal_t)
    (robots : List (Robot B LO NO)) :
    ∀ acc : Telemetry Prim,
      robots.foldl
        (fun acc it =>
          let states := acc.states ++ [E.get_state_pos it time]
          let prs := E.get_primitives it
          let prs_array := acc.prs_array ++ prs
          let path_array := acc.path_array ++ [E.vec2_to_vec3 (E.get_history it)]
          ({ path_array := path_array, prs_array := prs_array, states := states } : Telemetry Prim))
        acc
      = { path_array := acc.path_array ++ robots.map (fun it => E.vec2_to_vec3 (E.get_history it)),
          prs_array := acc.prs_array ++ robots.flatMap E.get_primitives,
          states := acc.states ++ robots.map (fun it => E.get_state_pos it time) } := by
  induction robots with
  | nil => intro acc; simp
  | cons r rs ih => intro acc; simp [ih]

/-- Closed form of the telemetry loop. -/
theorem collect_eq (E : Ext B LO NO Prim Cloud PolyArr PathArr PrimArr)
    (robots : List (Robot B LO NO)) (time : decimal_t) :
    collect E robots time
      = { path_array := robots.map (fun it => E.vec2_to_vec3 (E.get_history it)),
          prs_array := robots.flatMap E.get_primitives,
          states := robots.map (fun it => E.get_state_pos it time) } := by
  have h := collect_foldl E time robots { path_array := [], prs_array := [], states := [] }
  simpa using h

theorem replan_loop_true (E : Ext B LO NO Prim Cloud PolyArr PathArr PrimArr) (t0 : ℚ)
    (S : List PolyhedronObstacle2D) (oks : List Bool)
    (s : LoopState B LO NO Cloud PolyArr PathArr PrimArr) :
    replan_loop E t0 S (true :: oks) s = replan_loop E t0 S oks (tick E t0 S s) := rfl

theorem replan_loop_false (E : Ext B LO NO Prim Cloud PolyArr PathArr PrimArr) (t0 : ℚ)
    (S : List PolyhedronObstacle2D) (oks : List Bool)
    (s : LoopState B LO NO Cloud PolyArr PathArr PrimArr) :
    replan_loop E t0 S (false :: oks) s = s := rfl

/-- What `K` ticks add to the stamps of the four buffers, from any state. -/
theorem replan_loop_stamps (E : Ext B LO NO Prim Cloud PolyArr PathArr PrimArr) (t0 : ℚ)
    (S : List PolyhedronObstacle2D) (rest : List Bool) :
    ∀ (K : Nat) (s : LoopState B LO NO Cloud PolyArr PathArr PrimArr),
      let s' := replan_loop E t0 S (List.replicate K true ++ false :: rest) s
      s'.time = s.time + K * update_t ∧
      s'.cloud_msgs.map (fun m => m.header.stamp) = s.cloud_msgs.map (fun m => m.header.stamp)
        ++ (List.range K).map (fun (k : ℕ) => t0 + (s.time + ((k : ℚ) + 1) * update_t)) ∧
      s'.poly_msgs.map (fun m => m.header.stamp) = s.poly_msgs.map (fun m => m.header.stamp)
        ++ (List.range K).map (fun (k : ℕ) => t0 + (s.time + ((k : ℚ) + 1) * update_t)) ∧
      s'.path_msgs.map (fun m => m.header.stamp) = s.path_msgs.map (fun m => m.header.stamp)
        ++ (List.range K).map (fun (k : ℕ) => t0 + (s.time + ((k : ℚ) + 1) * update_t)) ∧
      s'.prs_msgs.map (fun m => m.header.stamp) = s.prs_msgs.map (fun m => m.header.stamp)
        ++ (List.range K).map (fun (k : ℕ) => t0 + (s.time + ((k : ℚ) + 1) * update_t)) := by
  intro K
  induction K with
  | zero => intro s; simp [replan_loop_false]
  | succ K ih =>
    intro s
    have hstep : List.replicate (K + 1) true ++ false :: rest
        = true :: (List.replicate K true ++ false :: rest) := by
      simp [List.replicate_succ]
    simp only [hstep, replan_loop_true]
    obtain ⟨h0, h1, h2, h3, h4⟩ := ih (tick E t0 S s)
    have hr : (List.range (K + 1)).map (fun (k : ℕ) => t0 + (s.time + ((k : ℚ) + 1) * update_t))
        = (t0 + (s.time + update_t))
          :: (List.range K).map (fun (k : ℕ) => t0 + ((s.time + update_t) + ((k : ℚ) + 1) * update_t)) := by
      rw [List.range_succ_eq_map, List.map_cons, List.map_map]
      congr 1
      · simp
      · apply List.map_congr_left
        intro k _
        simp only [Function.comp, Nat.cast_succ]
        ring
    refine ⟨?_, ?_, ?_, ?_, ?_⟩
    · rw [h0]; simp only [tick, Nat.cast_succ]; ring
    · rw [h1, hr]; simp [tick]
    · rw [h2, hr]; simp [tick]
    · rw [h3, hr]; simp [tick]
    · rw [h4, hr]; simp [tick]

/-- Claim C5: after `K` ticks of the replan loop started at logical time 0, each of
the four buffers holds `K` messages and the `k`-th of them (counting from 1) is
stamped `t0 + k * update_t`, with `update_t = 1/100`. -/
theorem replan_loop_records_every_tick (E : Ext B LO NO Prim Cloud PolyArr PathArr PrimArr)
    (t0 : ℚ) (S : List PolyhedronObstacle2D) (robots : List (Robot B LO NO)) (K : Nat)
    (rest : List Bool) :
    update_t = 1 / 100 ∧
    (replan_loop E t0 S (List.replicate K true ++ false :: rest)
        (loop_start robots)).cloud_msgs.map (fun m => m.header.stamp)
      = (List.range K).map (fun (k : ℕ) => t0 + ((k : ℚ) + 1) * update_t) ∧
    (replan_loop E t0 S (List.replicate K true ++ false :: rest)
        (loop_start robots)).poly_msgs.map (fun m => m.header.stamp)
      = (List.range K).map (fun (k : ℕ) => t0 + ((k : ℚ) + 1) * update_t) ∧
    (replan_loop E t0 S (List.replicate K true ++ false :: rest)
        (loop_start robots)).path_msgs.map (fun m => m.header.stamp)
      = (List.range K).map (fun (k : ℕ) => t0 + ((k : ℚ) + 1) * update_t) ∧
    (replan_loop E t0 S (List.replicate K true ++ false :: rest)
        (loop_start robots)).prs_msgs.map (fun m => m.header.stamp)
      = (List.range K).map (fun (k : ℕ) => t0 + ((k : ℚ) + 1) * update_t) ∧
    (replan_loop E t0 S (List.replicate K true ++ false :: rest)
        (loop_start robots)).cloud_msgs.length = K ∧
    (replan_loop E t0 S (List.replicate K true ++ false :: rest)
        (loop_start robots)).poly_msgs.length = K ∧
    (replan_loop E t0 S (List.replicate K true ++ false :: rest)
        (loop_start robots)).path_msgs.length = K ∧
    (replan_loop E t0 S (List.replicate K true ++ false :: rest)
        (loop_start robots)).prs_msgs.length = K := by
  obtain ⟨_, h1, h2, h3, h4⟩ := replan_loop_stamps E t0 S rest K
    (loop_start robots : LoopState B LO NO Cloud PolyArr PathArr PrimArr)
  simp only [loop_start, List.map_nil, List.nil_append, zero_add] at h1 h2 h3 h4
  refine ⟨by norm_num [update_t], h1, h2, h3, h4, ?_, ?_, ?_, ?_⟩
  · have := congrArg List.length h1; simpa using this
  · have := congrArg List.length h2; simpa using this
  · have := congrArg List.length h3; simpa using this
  · have := congrArg List.length h4; simpa using this

/-! ## Snapshot sizes and the barrier -/

theorem tick_robots_length (E : Ext B LO NO Prim Cloud PolyArr PathArr PrimArr) (t0 : ℚ)
    (S : List PolyhedronObstacle2D) (s : LoopState B LO NO Cloud PolyArr PathArr PrimArr) :
    (tick E t0 S s).robots.length = s.robots.length := by
  simp [tick, plan_all, set_obs_length]

theorem replan_loop_robots_length (E : Ext B LO NO Prim Cloud PolyArr PathArr PrimArr) (t0 : ℚ)
    (S : List PolyhedronObstacle2D) :
    ∀ (oks : List Bool) (s : LoopState B LO NO Cloud PolyArr PathArr PrimArr),
      (replan_loop E t0 S oks s).robots.length = s.robots.length := by
  intro oks
  induction oks with
  | nil => intro s; rfl
  | cons b oks ih =>
    intro s
    cases b with
    | false => rfl
    | true => rw [replan_loop_true, ih, tick_robots_length]

theorem set_obs_sizes (E : Ext B LO NO Prim Cloud PolyArr PathArr PrimArr)
    (robots : List (Robot B LO NO)) (time : decimal_t) (S : List PolyhedronObstacle2D)
    (i : Nat) (hi : i < robots.length) :
    ∃ r, (set_obs E robots time S).1[i]? = some r ∧
      r.nonlinear_obs_.length = robots.length - 1 ∧ r.linear_obs_.length = 0 ∧
      r.static_obs_.length = S.length ∧
      r.snapshot_size = (robots.length - 1) + S.length := by
  have hlen : (set_obs_inner E robots time i).length = robots.length - 1 := by
    rw [set_obs_inner_eraseIdx, List.length_map, List.length_eraseIdx_of_lt hi]
  refine ⟨⟨robots[i].body, S, [], set_obs_inner E robots time i⟩, ?_, hlen, rfl, rfl, ?_⟩
  · rw [set_obs_getElem?, List.getElem?_eq_getElem hi]; rfl
  · simp [Robot.snapshot_size, hlen]

/-- Claim C3: the snapshot `set_obs` installs on each of the `n` robots has `n - 1`
nonlinear, no linear and `s` static obstacles, `(n - 1) + s` in all; for the five
robots and two static obstacles of `main` this is 6 at every point of the loop,
and for two robots and no static obstacle it is 1. -/
theorem set_obs_snapshot_size (E : Ext B LO NO Prim Cloud PolyArr PathArr PrimArr) :
    (∀ (robots : List (Robot B LO NO)) (time : decimal_t) (S : List PolyhedronObstacle2D) (i : Nat),
      i < robots.length →
      ∃ r, (set_obs E robots time S).1[i]? = some r ∧
        r.nonlinear_obs_.length = robots.length - 1 ∧ r.linear_obs_.length = 0 ∧
        r.static_obs_.length = S.length ∧
        r.snapshot_size = (robots.length - 1) + S.length) ∧
    (∀ (t0 : ℚ) (oks : List Bool) (robot1 robot2 robot3 robot4 robot5 : Robot B LO NO)
        (time : decimal_t) (i : Nat), i < 5 →
      ∃ r, (set_obs E
          (replan_loop E t0 static_obs oks
            (loop_start (robots_of_main robot1 robot2 robot3 robot4 robot5) :
              LoopState B LO NO Cloud PolyArr PathArr PrimArr)).robots
          time static_obs).1[i]? = some r ∧
        r.snapshot_size = 6) ∧
    (∀ (t0 : ℚ) (oks : List Bool) (robot1 robot2 : Robot B LO NO) (time : decimal_t) (i : Nat),
      i < 2 →
      ∃ r, (set_obs E
          (replan_loop E t0 [] oks
            (loop_start [robot1, robot2] : LoopState B LO NO Cloud PolyArr PathArr PrimArr)).robots
          time []).1[i]? = some r ∧
        r.snapshot_size = 1) := by
  refine ⟨fun robots time S i hi => set_obs_sizes E robots time S i hi, ?_, ?_⟩
  · intro t0 oks r1 r2 r3 r4 r5 time i hi
    have hlen := replan_loop_robots_length E t0 static_obs oks
      (loop_start (robots_of_main r1 r2 r3 r4 r5) : LoopState B LO NO Cloud PolyArr PathArr PrimArr)
    have h5 : (loop_start (robots_of_main r1 r2 r3 r4 r5) :
        LoopState B LO NO Cloud PolyArr PathArr PrimArr).robots.length = 5 := rfl
    rw [h5] at hlen
    obtain ⟨r, hr, _, _, _, hsz⟩ := set_obs_sizes E _ time static_obs i (by rw [hlen]; exact hi)
    refine ⟨r, hr, ?_⟩
    rw [hsz, hlen]
    rfl
  · intro t0 oks r1 r2 time i hi
    have hlen := replan_loop_robots_length E t0 [] oks
      (loop_start [r1, r2] : LoopState B LO NO Cloud PolyArr PathArr PrimArr)
    have h2 : (loop_start [r1, r2] :
        LoopState B LO NO Cloud PolyArr PathArr PrimArr).robots.length = 2 := rfl
    rw [h2] at hlen
    obtain ⟨r, hr, _, _, _, hsz⟩ := set_obs_sizes E _ time [] i (by rw [hlen]; exact hi)
    refine ⟨r, hr, ?_⟩
    rw [hsz, hlen]
    rfl

/-- Claim C2: in a tick `set_obs` is called once at the advanced time
`time + update_t` on the fleet as it is before the tick, and `plan` runs on its
result; `set_obs` leaves every robot's body unchanged; and for every observer `i`
and every `j ≠ i` the obstacle of `j` in the snapshot of `i` (at position `j` when
`j < i`, at `j - 1` otherwise) is the one evaluated from the state robot `j` had
before the tick, also when `i > j`. -/
theorem tick_snapshots_use_pretick_state (E : Ext B LO NO Prim Cloud PolyArr PathArr PrimArr)
    (t0 : ℚ) (S : List PolyhedronObstacle2D)
    (s : LoopState B LO NO Cloud PolyArr PathArr PrimArr) :
    (tick E t0 S s).time = s.time + update_t ∧
    (tick E t0 S s).robots
      = (set_obs E s.robots (s.time + update_t) S).1.map
          (fun it => (E.plan it (s.time + update_t)).1) ∧
    (set_obs E s.robots (s.time + update_t) S).1.map (fun r => r.body)
      = s.robots.map (fun r => r.body) ∧
    (set_obs E s.robots (s.time + update_t) S).1.length = s.robots.length ∧
    (∀ (i j : Nat) (ri rj : Robot B LO NO),
      (set_obs E s.robots (s.time + update_t) S).1[i]? = some ri →
      s.robots[j]? = some rj → j ≠ i →
      ri.nonlinear_obs_[if j < i then j else j - 1]?
        = some (E.get_nonlinear_obstacle rj.body (s.time + update_t))) := by
  refine ⟨rfl, rfl, set_obs_bodies _ _ _ _, set_obs_length _ _ _ _, ?_⟩
  intro i j ri rj hri hrj hji
  rw [set_obs_getElem?] at hri
  cases hi : s.robots[i]? with
  | none => rw [hi] at hri; simp at hri
  | some r0 =>
    rw [hi] at hri
    simp only [Option.map_some', Option.some.injEq] at hri
    subst hri
    simp only
    rw [set_obs_inner_eraseIdx, List.getElem?_map, List.getElem?_eraseIdx]
    by_cases hlt : j < i
    · simp [hlt, hrj]
    · have hgt : i < j := by omega
      have h1 : ¬ (j - 1 < i) := by omega
      have h2 : j - 1 + 1 = j := by omega
      simp [hlt, h1, h2, hrj]

/-! ## Planning outcomes and the recorded geometry -/

theorem tick_with_outcome (E : Ext B LO NO Prim Cloud PolyArr PathArr PrimArr)
    (outcome : Robot B LO NO → decimal_t → Bool) (t0 : ℚ) (S : List PolyhedronObstacle2D)
    (s : LoopState B LO NO Cloud PolyArr PathArr PrimArr) :
    tick (E.with_outcome outcome) t0 S s = tick E t0 S s := rfl

theorem replan_loop_with_outcome (E : Ext B LO NO Prim Cloud PolyArr PathArr PrimArr)
    (outcome : Robot B LO NO → decimal_t → Bool) (t0 : ℚ) (S : List PolyhedronObstacle2D) :
    ∀ (oks : List Bool) (s : LoopState B LO NO Cloud PolyArr PathArr PrimArr),
      replan_loop (E.with_outcome outcome) t0 S oks s = replan_loop E t0 S oks s := by
  intro oks
  induction oks with
  | nil => intro s; rfl
  | cons b oks ih =>
    intro s
    cases b with
    | false => rfl
    | true => rw [replan_loop_true, replan_loop_true, tick_with_outcome, ih]

/-- Claim C7: the flags returned by `plan` have no effect on the loop.  Replacing
them by any `outcome` changes neither a tick nor a run of the loop; in a tick
`plan` is applied to every robot, every buffer gets one more message, and the
position message is built from one `get_state(time).pos` per robot, in fleet
order. -/
theorem plan_failure_is_agent_local (E : Ext B LO NO Prim Cloud PolyArr PathArr PrimArr)
    (outcome : Robot B LO NO → decimal_t → Bool) (t0 : ℚ) (S : List PolyhedronObstacle2D)
    (s : LoopState B LO NO Cloud PolyArr PathArr PrimArr) :
    tick (E.with_outcome outcome) t0 S s = tick E t0 S s ∧
    (∀ oks : List Bool,
      replan_loop (E.with_outcome outcome) t0 S oks s = replan_loop E t0 S oks s) ∧
    (tick E t0 S s).robots
      = (set_obs E s.robots (s.time + update_t) S).1.map
          (fun it => (E.plan it (s.time + update_t)).1) ∧
    (tick E t0 S s).robots.length = s.robots.length ∧
    (tick E t0 S s).cloud_msgs = s.cloud_msgs ++
      [⟨⟨"map", t0 + (s.time + update_t)⟩,
        E.vec_to_cloud (E.vec2_to_vec3
          ((tick E t0 S s).robots.map (fun it => E.get_state_pos it (s.time + update_t))))⟩] ∧
    ((tick E t0 S s).robots.map (fun it => E.get_state_pos it (s.time + update_t))).length
      = s.robots.length ∧
    (tick E t0 S s).poly_msgs.length = s.poly_msgs.length + 1 ∧
    (tick E t0 S s).path_msgs.length = s.path_msgs.length + 1 ∧
    (tick E t0 S s).prs_msgs.length = s.prs_msgs.length + 1 ∧
    (tick E t0 S s).cloud_msgs.length = s.cloud_msgs.length + 1 := by
  refine ⟨rfl, fun oks => replan_loop_with_outcome E outcome t0 S oks s, rfl,
    tick_robots_length E t0 S s, ?_, ?_, ?_, ?_, ?_, ?_⟩
  · simp only [tick, collect_eq]
  · rw [List.length_map, tick_robots_length]
  · simp [tick]
  · simp [tick]
  · simp [tick]
  · simp [tick]

theorem shrink_getElem? (poly_obs : List Polyhedron2D) (k : Nat) :
    (shrink poly_obs)[k]? = poly_obs[k]?.map (fun it => ⟨it.vs_.map shrink_hyperplane⟩) := by
  simp [shrink]

/-- Claim C10: the polyhedra recorded and published in a tick are those `set_obs`
returned with every hyperplane `(p, n)` replaced by `(p - 0.25 * n, n)`, in the
same number and order; the fleet after the tick is `plan` applied to the robots
`set_obs` returned, whose obstacle lists are the ones `set_obs` installed. -/
theorem recorded_geometry_is_shrunk (E : Ext B LO NO Prim Cloud PolyArr PathArr PrimArr)
    (t0 : ℚ) (S : List PolyhedronObstacle2D)
    (s : LoopState B LO NO Cloud PolyArr PathArr PrimArr) :
    (tick E t0 S s).poly_msgs = s.poly_msgs ++
      [⟨⟨"map", t0 + (s.time + update_t)⟩,
        E.polyhedron_array_to_ros (shrink (set_obs E s.robots (s.time + update_t) S).2)⟩] ∧
    (tick E t0 S s).poly_pub = s.poly_pub ++
      [⟨⟨"map", t0 + (s.time + update_t)⟩,
        E.polyhedron_array_to_ros (shrink (set_obs E s.robots (s.time + update_t) S).2)⟩] ∧
    (shrink (set_obs E s.robots (s.time + update_t) S).2).length
      = (set_obs E s.robots (s.time + update_t) S).2.length ∧
    (∀ (k : Nat) (P : Polyhedron2D),
      (set_obs E s.robots (s.time + update_t) S).2[k]? = some P →
      ∃ Q, (shrink (set_obs E s.robots (s.time + update_t) S).2)[k]? = some Q ∧
        Q.vs_.length = P.vs_.length ∧
        ∀ (m : Nat) (h : Hyperplane2D), P.vs_[m]? = some h →
          Q.vs_[m]? = some ⟨(h.p_.1 - 0.25 * h.n_.1, h.p_.2 - 0.25 * h.n_.2), h.n_⟩) ∧
    (tick E t0 S s).robots = plan_all E (set_obs E s.robots (s.time + update_t) S).1
      (s.time + update_t) ∧
    (∀ (i : Nat) (r : Robot B LO NO),
      (set_obs E s.robots (s.time + update_t) S).1[i]? = some r →
      r.static_obs_ = S ∧ r.linear_obs_ = [] ∧
      r.nonlinear_obs_ = (s.robots.eraseIdx i).map
        (fun rj => E.get_nonlinear_obstacle rj.body (s.time + update_t))) := by
  refine ⟨rfl, rfl, by simp [shrink], ?_, rfl, ?_⟩
  · intro k P hP
    refine ⟨⟨P.vs_.map shrink_hyperplane⟩, ?_, by simp, ?_⟩
    · rw [shrink_getElem?, hP]; rfl
    · intro m h hh
      simp only [List.getElem?_map, hh, Option.map_some', shrink_hyperplane]
      rw [mul_comm h.n_.1, mul_comm h.n_.2]
  · intro i r hr
    rw [set_obs_getElem?] at hr
    cases hi : s.robots[i]? with
    | none => rw [hi] at hr; simp at hr
    | some r0 =>
      rw [hi] at hr
      simp only [Option.map_some', Option.some.injEq] at hr
      subst hr
      exact ⟨rfl, rfl, set_obs_inner_eraseIdx E s.robots _ i⟩

/-! ## The bag -/

/-- Closed form of the bag. -/
theorem write_bag_eq (states_name polys_name paths_name prs_name : String)
    (s : LoopState B LO NO Cloud PolyArr PathArr PrimArr) :
    write_bag states_name polys_name paths_name prs_name s
      = s.cloud_msgs.map (fun it => BagRecord.mk states_name it.header.stamp (BagMsg.cloud it))
        ++ s.poly_msgs.map (fun it => BagRecord.mk polys_name it.header.stamp (BagMsg.polys it))
        ++ s.path_msgs.map (fun it => BagRecord.mk paths_name it.header.stamp (BagMsg.paths it))
        ++ s.prs_msgs.map (fun it => BagRecord.mk prs_name it.header.stamp (BagMsg.prs it)) := by
  simp only [write_bag, foldl_push, List.nil_append]

theorem filter_topic_map {α : Type} (name topic : String) (l : List α)
    (f : α → ℚ × BagMsg Cloud PolyArr PathArr PrimArr) :
    (l.map (fun it => BagRecord.mk topic (f it).1 (f it).2)).filter (fun r => r.topic == name)
      = if topic = name then l.map (fun it => BagRecord.mk topic (f it).1 (f it).2) else [] := by
  by_cases h : topic = name
  · simp [h, List.filter_map, Function.comp_def]
  · simp [h, List.filter_map, Function.comp_def]

/-- The records under a name are those of the channels configured with that name. -/
theorem records_under_write_bag (name states_name polys_name paths_name prs_name : String)
    (s : LoopState B LO NO Cloud PolyArr PathArr PrimArr) :
    records_under name (write_bag states_name polys_name paths_name prs_name s)
      = (if states_name = name then
          s.cloud_msgs.map (fun it => BagRecord.mk states_name it.header.stamp (BagMsg.cloud it))
         else [])
        ++ (if polys_name = name then
          s.poly_msgs.map (fun it => BagRecord.mk polys_name it.header.stamp (BagMsg.polys it))
         else [])
        ++ (if paths_name = name then
          s.path_msgs.map (fun it => BagRecord.mk paths_name it.header.stamp (BagMsg.paths it))
         else [])
        ++ (if prs_name = name then
          s.prs_msgs.map (fun it => BagRecord.mk prs_name it.header.stamp (BagMsg.prs it))
         else []) := by
  rw [write_bag_eq]
  simp only [records_under, List.filter_append]
  rw [filter_topic_map name states_name s.cloud_msgs (fun it => (it.header.stamp, BagMsg.cloud it)),
    filter_topic_map name polys_name s.poly_msgs (fun it => (it.header.stamp, BagMsg.polys it)),
    filter_topic_map name paths_name s.path_msgs (fun it => (it.header.stamp, BagMsg.paths it)),
    filter_topic_map name prs_name s.prs_msgs (fun it => (it.header.stamp, BagMsg.prs it))]

/-- Claim C6 fails for channel names that coincide: with the positions and the
polyhedra channel both named `/x`, the records under `/x` after one tick are a
position message and a polyhedra message, not the position buffer alone. -/
theorem write_bag_shared_name_mixes_channels :
    records_under "/x" (write_bag "/x" "/x" "/paths" "/prs" demoRun)
      ≠ demoRun.cloud_msgs.map
          (fun it => BagRecord.mk "/x" it.header.stamp (BagMsg.cloud it)) := by
  intro h
  have hl := congrArg List.length h
  rw [records_under_write_bag] at hl
  simp [demoRun, replan_loop, tick] at hl

/-- Claim C6, amended: when the four channel names are pairwise distinct, the
records of the bag under a channel's name, in write order, are the messages of
that channel's buffer in buffer order, each written with its own header stamp. -/
theorem write_bag_channel_is_buffer (states_name polys_name paths_name prs_name : String)
    (hnames : [states_name, polys_name, paths_name, prs_name].Nodup)
    (s : LoopState B LO NO Cloud PolyArr PathArr PrimArr) :
    records_under states_name (write_bag states_name polys_name paths_name prs_name s)
      = s.cloud_msgs.map (fun it => BagRecord.mk states_name it.header.stamp (BagMsg.cloud it)) ∧
    records_under polys_name (write_bag states_name polys_name paths_name prs_name s)
      = s.poly_msgs.map (fun it => BagRecord.mk polys_name it.header.stamp (BagMsg.polys it)) ∧
    records_under paths_name (write_bag states_name polys_name paths_name prs_name s)
      = s.path_msgs.map (fun it => BagRecord.mk paths_name it.header.stamp (BagMsg.paths it)) ∧
    records_under prs_name (write_bag states_name polys_name paths_name prs_name s)
      = s.prs_msgs.map (fun it => BagRecord.mk prs_name it.header.stamp (BagMsg.prs it)) := by
  simp only [List.nodup_cons, List.mem_cons, List.mem_singleton, not_or, List.not_mem_nil,
    not_false_eq_true, List.nodup_nil, and_true] at hnames
  obtain ⟨⟨h12, h13, h14⟩, ⟨h23, h24⟩, h34⟩ := hnames
  refine ⟨?_, ?_, ?_, ?_⟩
  · rw [records_under_write_bag]
    simp [Ne.symm h12, Ne.symm h13, Ne.symm h14]
  · rw [records_under_write_bag]
    simp [h12, Ne.symm h23, Ne.symm h24]
  · rw [records_under_write_bag]
    simp [h13, h23, Ne.symm h34]
  · rw [records_under_write_bag]
    simp [h14, h24, h34]

theorem write_bag_channel_is_buffer_witness :
    [("/states" : String), "/polyhedrons", "/paths", "/prs"].Nodup ∧
    (records_under "/states" (write_bag "/states" "/polyhedrons" "/paths" "/prs" demoRun)
      = demoRun.cloud_msgs.map
          (fun it => BagRecord.mk "/states" it.header.stamp (BagMsg.cloud it)) ∧
    records_under "/polyhedrons" (write_bag "/states" "/polyhedrons" "/paths" "/prs" demoRun)
      = demoRun.poly_msgs.map
          (fun it => BagRecord.mk "/polyhedrons" it.header.stamp (BagMsg.polys it)) ∧
    records_under "/paths" (write_bag "/states" "/polyhedrons" "/paths" "/prs" demoRun)
      = demoRun.path_msgs.map
          (fun it => BagRecord.mk "/paths" it.header.stamp (BagMsg.paths it)) ∧
    records_under "/prs" (write_bag "/states" "/polyhedrons" "/paths" "/prs" demoRun)
      = demoRun.prs_msgs.map
          (fun it => BagRecord.mk "/prs" it.header.stamp (BagMsg.prs it))) :=
  ⟨by decide, write_bag_channel_is_buffer "/states" "/polyhedrons" "/paths" "/prs" (by decide) demoRun⟩

/-! ## The control-input set -/

/-- The loop condition on the `k`-th value of an axis holds exactly for `k ≤ 2 * num`. -/
theorem axis_cond (u : ℚ) (num : ℕ) (hu : 0 < u) (hnum : 1 ≤ num) (k : ℕ) :
    -u + (k : ℚ) * (u / ((num : ℤ) : ℚ)) ≤ u ↔ k < 2 * num + 1 := by
  have hn : (0 : ℚ) < (num : ℚ) := by exact_mod_cast hnum
  have hcast : (((num : ℤ) : ℚ)) = (num : ℚ) := by norm_cast
  rw [hcast]
  have key : -u + (k : ℚ) * (u / (num : ℚ)) ≤ u ↔ (k : ℚ) ≤ 2 * (num : ℚ) := by
    constructor
    · intro h
      have h1 : (k : ℚ) * (u / (num : ℚ)) ≤ 2 * u := by linarith
      have h2 : (k : ℚ) * (u / (num : ℚ)) = (k : ℚ) * u / (num : ℚ) := by ring
      rw [h2, div_le_iff₀ hn] at h1
      have h3 : (k : ℚ) * u ≤ (2 * (num : ℚ)) * u := by linarith
      exact le_of_mul_le_mul_right h3 hu
    · intro h
      have h2 : (k : ℚ) * (u / (num : ℚ)) = (k : ℚ) * u / (num : ℚ) := by ring
      have h1 : (k : ℚ) * u / (num : ℚ) ≤ 2 * u := by
        rw [div_le_iff₀ hn]
        have := mul_le_mul_of_nonneg_right h (le_of_lt hu)
        linarith
      rw [h2]; linarith
  rw [key]
  constructor
  · intro h
    have : k ≤ 2 * num := by exact_mod_cast h
    omega
  · intro h
    have : k ≤ 2 * num := by omega
    exact_mod_cast this

/-- The inner loop from its `b`-th value with `r` values left. -/
theorem input_control_inner_run (u du dx : ℚ) (m : ℕ)
    (hcond : ∀ k : ℕ, (-u + (k : ℚ) * du ≤ u ↔ k < m)) :
    ∀ (r b : ℕ) (U : List Vec2f) (fuel : ℕ), b + r = m → r + 1 ≤ fuel →
      input_control_inner u du dx fuel (-u + (b : ℚ) * du) U
        = some (U ++ (List.range' b r).map (fun (k : ℕ) => (dx, -u + (k : ℚ) * du))) := by
  intro r
  induction r with
  | zero =>
    intro b U fuel hb hf
    obtain ⟨f, rfl⟩ : ∃ f, fuel = f + 1 := ⟨fuel - 1, by omega⟩
    have hnot : ¬ (-u + (b : ℚ) * du ≤ u) := by
      rw [hcond]; omega
    simp [input_control_inner, hnot]
  | succ r ih =>
    intro b U fuel hb hf
    obtain ⟨f, rfl⟩ : ∃ f, fuel = f + 1 := ⟨fuel - 1, by omega⟩
    have hyes : -u + (b : ℚ) * du ≤ u := by
      rw [hcond]; omega
    have hnext : -u + (b : ℚ) * du + du = -u + ((b + 1 : ℕ) : ℚ) * du := by
      push_cast; ring
    simp only [input_control_inner, hyes, if_true]
    rw [hnext, ih (b + 1) _ f (by omega) (by omega), List.range'_succ]
    simp

/-- The outer loop from its `a`-th value with `r` values left. -/
theorem input_control_outer_run (u du : ℚ) (m : ℕ)
    (hcond : ∀ k : ℕ, (-u + (k : ℚ) * du ≤ u ↔ k < m)) (inner_fuel : ℕ) (hin : m + 1 ≤ inner_fuel) :
    ∀ (r a : ℕ) (U : List Vec2f) (fuel : ℕ), a + r = m → r + 1 ≤ fuel →
      input_control_outer u du inner_fuel fuel (-u + (a : ℚ) * du) U
        = some (U ++ (List.range' a r).flatMap (fun (i : ℕ) =>
            (List.range m).map (fun (k : ℕ) => (-u + (i : ℚ) * du, -u + (k : ℚ) * du)))) := by
  intro r
  induction r with
  | zero =>
    intro a U fuel ha hf
    obtain ⟨f, rfl⟩ : ∃ f, fuel = f + 1 := ⟨fuel - 1, by omega⟩
    have hnot : ¬ (-u + (a : ℚ) * du ≤ u) := by
      rw [hcond]; omega
    simp [input_control_outer, hnot]
  | succ r ih =>
    intro a U fuel ha hf
    obtain ⟨f, rfl⟩ : ∃ f, fuel = f + 1 := ⟨fuel - 1, by omega⟩
    have hyes : -u + (a : ℚ) * du ≤ u := by
      rw [hcond]; omega
    have hnext : -u + (a : ℚ) * du + du = -u + ((a + 1 : ℕ) : ℚ) * du := by
      push_cast; ring
    have hinner := input_control_inner_run u du (-u + (a : ℚ) * du) m hcond m 0 U inner_fuel
      (by omega) hin
    simp only [Nat.cast_zero, zero_mul, add_zero] at hinner
    simp only [input_control_outer, hyes, if_true, hinner]
    rw [hnext, ih (a + 1) _ f (by omega) (by omega), List.range'_succ, List.range_eq_range']
    simp

/-- Closed form of the control-input set. -/
theorem input_control_eq (u : ℚ) (num : ℕ) (hu : 0 < u) (hnum : 1 ≤ num) (fuel : ℕ)
    (hfuel : 2 * num + 2 ≤ fuel) :
    input_control fuel u (num : ℤ)
      = some ((List.range (2 * num + 1)).flatMap (fun (a : ℕ) =>
          (List.range (2 * num + 1)).map (fun (b : ℕ) =>
            (-u + (a : ℚ) * u / (num : ℚ), -u + (b : ℚ) * u / (num : ℚ))))) := by
  have hcond := axis_cond u num hu hnum
  have h := input_control_outer_run u (u / ((num : ℤ) : ℚ)) (2 * num + 1) hcond fuel (by omega)
    (2 * num + 1) 0 [] fuel (by omega) (by omega)
  simp only [Nat.cast_zero, zero_mul, add_zero, List.nil_append] at h
  unfold input_control
  simp only
  rw [h]
  simp only [Int.cast_natCast, mul_div_assoc, List.range_eq_range']

/-- Indexing a concatenation of blocks of equal length `m`. -/
theorem getElem?_flatMap_blocks {α β : Type} (g : α → List β) (m : ℕ)
    (hg : ∀ x, (g x).length = m) :
    ∀ (l : List α) (a b : ℕ), b < m →
      (l.flatMap g)[a * m + b]? = l[a]?.bind (fun x => (g x)[b]?) := by
  intro l
  induction l with
  | nil => intro a b _; simp
  | cons x l ih =>
    intro a b hb
    cases a with
    | zero =>
      simp only [List.flatMap_cons, Nat.zero_mul, Nat.zero_add]
      rw [List.getElem?_append_left (by rw [hg]; exact hb)]
      simp
    | succ a =>
      simp only [List.flatMap_cons]
      rw [List.getElem?_append_right (by rw [hg, Nat.succ_mul]; omega)]
      have hidx : (a + 1) * m + b - (g x).length = a * m + b := by
        rw [hg, Nat.succ_mul]; omega
      rw [hidx, ih a b hb]
      simp

/-- The length of a concatenation of blocks of equal length `m`. -/
theorem length_flatMap_blocks {α β : Type} (g : α → List β) (m : ℕ)
    (hg : ∀ x, (g x).length = m) :
    ∀ l : List α, (l.flatMap g).length = l.length * m := by
  intro l
  induction l with
  | nil => simp
  | cons x l ih => simp [ih, hg, Nat.succ_mul, Nat.add_comm]

/-- The control-input set for a count `num` given as a natural number. -/
theorem input_control_grid_nat (u : ℚ) (num : ℕ) (hu : 0 < u) (hnum : 1 ≤ num) (fuel : ℕ)
    (hfuel : 2 * num + 2 ≤ fuel) :
    ∃ U : List Vec2f, input_control fuel u (num : ℤ) = some U ∧
      U.length = (2 * num + 1) ^ 2 ∧
      (∀ a b : ℕ, a ≤ 2 * num → b ≤ 2 * num →
        U[a * (2 * num + 1) + b]?
          = some (-u + (a : ℚ) * u / (num : ℚ), -u + (b : ℚ) * u / (num : ℚ))) ∧
      (-u, -u) ∈ U ∧ (u, u) ∈ U ∧
      input_control 4 1 1
        = some [(-1, -1), (-1, 0), (-1, 1), (0, -1), (0, 0), (0, 1), (1, -1), (1, 0), (1, 1)] := by
  have hidx : ∀ a b : ℕ, a ≤ 2 * num → b ≤ 2 * num →
      ((List.range (2 * num + 1)).flatMap (fun (a : ℕ) =>
          (List.range (2 * num + 1)).map (fun (b : ℕ) =>
            (-u + (a : ℚ) * u / (num : ℚ), -u + (b : ℚ) * u / (num : ℚ)))))[a * (2 * num + 1) + b]?
        = some (-u + (a : ℚ) * u / (num : ℚ), -u + (b : ℚ) * u / (num : ℚ)) := by
    intro a b ha hb
    rw [getElem?_flatMap_blocks _ (2 * num + 1) (by intro x; simp) _ a b (by omega)]
    rw [List.getElem?_range (by omega)]
    simp only [Option.some_bind, List.getElem?_map]
    rw [List.getElem?_range (by omega)]
    rfl
  have hn : (num : ℚ) ≠ 0 := by
    have : (0 : ℚ) < (num : ℚ) := by exact_mod_cast hnum
    exact ne_of_gt this
  refine ⟨_, input_control_eq u num hu hnum fuel hfuel, ?_, hidx, ?_, ?_, ?_⟩
  · rw [length_flatMap_blocks _ (2 * num + 1) (by intro x; simp)]
    simp [pow_two]
  · have h := hidx 0 0 (by omega) (by omega)
    simp only [Nat.cast_zero, zero_mul, zero_div, add_zero] at h
    exact List.mem_iff_getElem?.mpr ⟨_, h⟩
  · have h := hidx (2 * num) (2 * num) (by omega) (by omega)
    have he : -u + ((2 * num : ℕ) : ℚ) * u / (num : ℚ) = u := by
      push_cast
      field_simp
      ring
    rw [he] at h
    exact List.mem_iff_getElem?.mpr ⟨_, h⟩
  · norm_num [input_control, input_control_outer, input_control_inner]

/-- Claim C8: for `u > 0` and an integer `num ≥ 1` the two loops end (within
`2 * num + 2` evaluations of each loop condition) and `U` is the full grid: it has
`(2 * num + 1) ^ 2` samples, the sample at position `a * (2 * num + 1) + b` is
`(-u + a * u / num, -u + b * u / num)`, the corners `(-u, -u)` and `(u, u)` occur,
and for `u = 1`, `num = 1` it is the nine samples of `{-1, 0, 1} × {-1, 0, 1}`. -/
theorem input_control_is_full_grid (u : ℚ) (num : ℤ) (hu : 0 < u) (hnum : 1 ≤ num) (fuel : ℕ)
    (hfuel : 2 * num.toNat + 2 ≤ fuel) :
    ∃ U : List Vec2f, input_control fuel u num = some U ∧
      ((U.length : ℤ) = (2 * num + 1) ^ 2) ∧
      (∀ a b : ℕ, (a : ℤ) ≤ 2 * num → (b : ℤ) ≤ 2 * num →
        U[a * (2 * num.toNat + 1) + b]?
          = some (-u + (a : ℚ) * u / (num : ℚ), -u + (b : ℚ) * u / (num : ℚ))) ∧
      (-u, -u) ∈ U ∧ (u, u) ∈ U ∧
      input_control 4 1 1
        = some [(-1, -1), (-1, 0), (-1, 1), (0, -1), (0, 0), (0, 1), (1, -1), (1, 0), (1, 1)] := by
  obtain ⟨n, rfl⟩ := Int.eq_ofNat_of_zero_le (by omega : (0 : ℤ) ≤ num)
  have hn1 : 1 ≤ n := by exact_mod_cast hnum
  simp only [Int.toNat_ofNat] at hfuel ⊢
  obtain ⟨U, hU, hlen, hidx, hlo, hhi, hdef⟩ := input_control_grid_nat u n hu hn1 fuel hfuel
  refine ⟨U, hU, ?_, ?_, hlo, hhi, hdef⟩
  · rw [hlen]; push_cast; ring
  · intro a b ha hb
    have ha2 : a ≤ 2 * n := by exact_mod_cast ha
    have hb2 : b ≤ 2 * n := by exact_mod_cast hb
    have := hidx a b ha2 hb2
    simpa using this

theorem input_control_is_full_grid_witness :
    (0 : ℚ) < 2 ∧ (1 : ℤ) ≤ 3 ∧ 2 * (3 : ℤ).toNat + 2 ≤ 8 ∧
    ∃ U : List Vec2f, input_control 8 2 3 = some U ∧
      ((U.length : ℤ) = (2 * 3 + 1) ^ 2) ∧
      (∀ a b : ℕ, (a : ℤ) ≤ 2 * 3 → (b : ℤ) ≤ 2 * 3 →
        U[a * (2 * (3 : ℤ).toNat + 1) + b]?
          = some (-2 + (a : ℚ) * 2 / ((3 : ℤ) : ℚ), -2 + (b : ℚ) * 2 / ((3 : ℤ) : ℚ))) ∧
      (-2, -2) ∈ U ∧ (2, 2) ∈ U ∧
      input_control 4 1 1
        = some [(-1, -1), (-1, 0), (-1, 1), (0, -1), (0, 0), (0, 1), (1, -1), (1, 0), (1, 1)] :=
  ⟨by norm_num, by decide, by decide,
    input_control_is_full_grid 2 3 (by norm_num) (by decide) 8 (by decide)⟩

/-! ## Instances on a small fleet -/

theorem set_obs_snapshot_excludes_self_witness :
    1 < [demoRobot 10, demoRobot 20, demoRobot 30].length ∧
    ∃ r, (set_obs demoExt [demoRobot 10, demoRobot 20, demoRobot 30] 0 static_obs).1[1]? = some r ∧
      r.nonlinear_obs_ = ([demoRobot 10, demoRobot 20, demoRobot 30].enum.filter
          (fun p => decide (p.1 ≠ 1))).map
          (fun p => demoExt.get_nonlinear_obstacle p.2.body 0) ∧
      r.nonlinear_obs_ = ([demoRobot 10, demoRobot 20, demoRobot 30].eraseIdx 1).map
          (fun rj => demoExt.get_nonlinear_obstacle rj.body 0) ∧
      r.static_obs_ = static_obs :=
  ⟨by decide,
    set_obs_snapshot_excludes_self demoExt [demoRobot 10, demoRobot 20, demoRobot 30] 0 static_obs 1
      (by decide)⟩

theorem tick_snapshots_use_pretick_state_witness :
    (set_obs demoExt [demoRobot 10, demoRobot 20, demoRobot 30] (0 + update_t) []).1[2]?
      = some ⟨30, [], [], [10, 20]⟩ ∧
    [demoRobot 10, demoRobot 20, demoRobot 30][0]? = some (demoRobot 10) ∧
    0 ≠ 2 ∧
    ([10, 20] : List Nat)[if 0 < 2 then 0 else 0 - 1]?
      = some (demoExt.get_nonlinear_obstacle (demoRobot 10).body (0 + update_t)) :=
  ⟨rfl, rfl, by decide,
    (tick_snapshots_use_pretick_state demoExt 0 []
      (loop_start [demoRobot 10, demoRobot 20, demoRobot 30])).2.2.2.2 2 0
      ⟨30, [], [], [10, 20]⟩ (demoRobot 10) rfl rfl (by decide)⟩

theorem set_obs_snapshot_size_witness :
    1 < [demoRobot 10, demoRobot 20, demoRobot 30].length ∧
    ∃ r, (set_obs demoExt [demoRobot 10, demoRobot 20, demoRobot 30] 0 static_obs).1[1]? = some r ∧
      r.nonlinear_obs_.length = [demoRobot 10, demoRobot 20, demoRobot 30].length - 1 ∧
      r.linear_obs_.length = 0 ∧
      r.static_obs_.length = static_obs.length ∧
      r.snapshot_size = ([demoRobot 10, demoRobot 20, demoRobot 30].length - 1) + static_obs.length :=
  ⟨by decide,
    (set_obs_snapshot_size demoExt).1 [demoRobot 10, demoRobot 20, demoRobot 30] 0 static_obs 1
      (by decide)⟩

theorem set_obs_returns_fleet_then_statics_witness :
    1 < [demoRobot 10, demoRobot 20].length ∧
    (set_obs demoExt [demoRobot 10, demoRobot 20] 0 static_obs).2[1]?
      = [demoRobot 10, demoRobot 20][1]?.map
          (fun r => demoExt.poly (demoExt.get_nonlinear_obstacle r.body 0) 0) ∧
    1 < static_obs.length ∧
    (set_obs demoExt [demoRobot 10, demoRobot 20] 0 static_obs).2[
        [demoRobot 10, demoRobot 20].length + 1]?
      = static_obs[1]?.map (fun it => demoExt.static_poly it 0) :=
  ⟨by decide,
    (set_obs_returns_fleet_then_statics demoExt [demoRobot 10, demoRobot 20] 0 static_obs).2.2.1 1
      (by decide),
    by decide,
    (set_obs_returns_fleet_then_statics demoExt [demoRobot 10, demoRobot 20] 0 static_obs).2.2.2 1
      (by decide)⟩

theorem recorded_geometry_is_shrunk_witness :
    (set_obs demoExt [demoRobot 10, demoRobot 20] (0 + update_t) static_obs).2[2]? = some rec2 ∧
    rec2.vs_[3]? = some ⟨(5, 5.5), (0, 1)⟩ ∧
    ∃ Q, (shrink (set_obs demoExt [demoRobot 10, demoRobot 20] (0 + update_t) static_obs).2)[2]?
        = some Q ∧
      Q.vs_.length = rec2.vs_.length ∧
      Q.vs_[3]? = some ⟨(5 - 0.25 * 0, 5.5 - 0.25 * 1), (0, 1)⟩ := by
  have h := (recorded_geometry_is_shrunk demoExt 0 static_obs
    (loop_start [demoRobot 10, demoRobot 20])).2.2.2.1 2 rec2 rfl
  obtain ⟨Q, hQ, hlen, hv⟩ := h
  exact ⟨rfl, rfl, Q, hQ, hlen, hv 3 ⟨(5, 5.5), (0, 1)⟩ rfl⟩

end Properties

end MplRos
